import Mathlib

/-!
Shallow embedding of the pace-analysis repository (src/main.py and
src/time_checker.py) for specification checking.

Modelling conventions:
- Python floats (timestamps, signal values) are modelled as `Rat`; the
  claims under study concern data flow, not floating-point rounding.
- Python strings are modelled as Lean `String`; the regex digit class
  `\d` is modelled as the ASCII digits `0`-`9` (`Char.isDigit`), which
  agrees with Python on all ASCII input.
- Exceptions are modelled with explicit outcome constructors / `Except`.
-/

namespace PaceAnalysis

/-! ### TopicKeyParser (`parse_topic_with_index`, main.py lines 38-53)

The source applies `re.match(r'^(.+?)\[(\d+)\]$', topic_key)`.  With both
anchors present the decomposition `prefix ++ "[" ++ digits ++ "]"` (with a
possible single trailing newline admitted by Python's `$`) is unique when
it exists, because the digit group cannot contain `[`; the lazy `+?` is
therefore irrelevant to the result.  `.` does not match a newline, so the
prefix group must be newline-free, and `(.+?)` forces it non-empty. -/

/-- Numeric value of a list of ASCII digit characters, most significant
first; models `int(match.group(2))`. -/
def natOfDigits (ds : List Char) : Nat :=
  ds.foldl (fun a c => a * 10 + (c.toNat - 48)) 0

/-- Final stage of the regex match: `ds` is the (reversed) digit run
found before the closing `]`, `rest2` the remainder; the match succeeds
when `rest2` starts with `[` and leaves a nonempty newline-free prefix. -/
def splitAfterDigits (ds rest2 : List Char) : Option (List Char × Nat) :=
  match rest2 with
  | '[' :: p_rev =>
    if ds = [] then none
    else if p_rev = [] then none
    else if '\n' ∈ p_rev then none
    else some (p_rev.reverse, natOfDigits ds.reverse)
  | _ => none

/-- Regex match on the reversed character list: a leading `]`, then the
maximal digit run, then `splitAfterDigits`. -/
def splitIndexRev : List Char → Option (List Char × Nat)
  | ']' :: rest =>
    splitAfterDigits (rest.takeWhile Char.isDigit)
      (rest.drop (rest.takeWhile Char.isDigit).length)
  | _ => none

/-- Core of the regex match, on the character list of the string with any
single trailing newline already removed.  Scans from the right: a final
`]`, then the maximal nonempty digit run, then `[`, then a nonempty
newline-free prefix. -/
def splitIndex (cs : List Char) : Option (List Char × Nat) :=
  splitIndexRev cs.reverse

/-- Body of a topic key: Python's `$` also matches before one trailing
newline, so the regex effectively operates on this list. -/
def parseBody (s : String) : List Char :=
  if s.data.getLast? = some '\n' then s.data.dropLast else s.data

/-- `parse_topic_with_index` from main.py: returns `(topic_name, index)`,
falling back to `(topic_key, none)` when the regex does not match. -/
def parse_topic_with_index (topic_key : String) : String × Option Nat :=
  match splitIndex (parseBody topic_key) with
  | some (p, k) => (⟨p⟩, some k)
  | none => (topic_key, none)

/-- The decomposition recognised by the regex `^(.+?)\[(\d+)\]$` (on the
newline-stripped body): nonempty newline-free prefix, then `[`, a
nonempty digit run, and a final `]`. -/
def IsBracketDecomp (cs p ds : List Char) : Prop :=
  cs = p ++ '[' :: (ds ++ [']']) ∧ p ≠ [] ∧ '\n' ∉ p ∧ ds ≠ [] ∧
    ∀ c ∈ ds, c.isDigit

/-! ### Data model for the plotting pipeline (main.py)

A recording ("bag") is an ordered list of time-stamped records.  The
payload shapes distinguish exactly what `plot_topics` probes for:
`getattr(msg, 'data', None)` followed by the `__iter__`/`str` check. -/

/-- Payload of one recorded message, as far as `plot_topics` inspects it.
`xyz` is a structure exposing three spatial-axis fields but no `data`
attribute (e.g. a geometry vector); `nodata` any other structure without
a `data` attribute. -/
inductive Payload
  | num (v : Rat)
  | vec (vs : List Rat)
  | strv (s : String)
  | xyz (x y z : Rat)
  | nodata
  deriving DecidableEq, Repr

/-- Value appended to `topic_data` for one record: the result of
`value = getattr(msg, 'data', None)` and the iterable check at
main.py lines 107-112.  `pynone` models Python `None` (the `getattr`
default when the message has no `data` field). -/
inductive Entry
  | num (v : Rat)
  | vec (vs : List Rat)
  | strv (s : String)
  | pynone
  deriving DecidableEq, Repr

/-- `value = getattr(msg, 'data', None)` combined with the
`hasattr(value, '__iter__') and not isinstance(value, (str, bytes))`
classification: iterable non-string data is stored as a list, anything
else (scalar, string, or the `None` default) is stored as-is. -/
def classify : Payload → Entry
  | .num v => .num v
  | .vec vs => .vec vs
  | .strv s => .strv s
  | .xyz _ _ _ => .pynone
  | .nodata => .pynone

/-- One record of a recording: `(topic, msg, t)` as yielded by
`bag.read_messages`. -/
structure Record where
  topic : String
  payload : Payload
  time : Rat
  deriving DecidableEq, Repr

/-- A recording, in stored (time) order. -/
abbrev Bag := List Record

/-- `bag.read_messages(topics=ts)`: the records whose topic is requested,
in order.  rosbag treats a falsy (empty) topic collection as "no topic
filter", yielding every record. -/
def readMessages (bag : Bag) (ts : List String) : List Record :=
  bag.filter (fun r => ts.isEmpty ∨ r.topic ∈ ts)

/-- `bag.read_messages(topics=ts, start_time=a, end_time=b)`: the same
topic filter with both time bounds treated inclusively by rosbag. -/
def readMessagesBounded (bag : Bag) (ts : List String) (a b : Rat) :
    List Record :=
  bag.filter (fun r => (ts.isEmpty ∨ r.topic ∈ ts) ∧ a ≤ r.time ∧ r.time ≤ b)

/-- `PlotSettings` (main.py lines 19-28).  `outpath` resolution in
`__post_init__` is path glue and is kept as a plain field. -/
structure PlotSettings where
  rosbag_path : String
  topics : List String
  label_map : List (String × String)
  outpath : String
  slip_regions : List (Rat × Rat)
  graph_range : Option (Rat × Rat)
  legend_loc : String
  epoc_time : Bool
  deriving DecidableEq, Repr

/-- Convenience constructor used by concrete test inputs. -/
def mkSettings (lm : List (String × String)) (gr : Option (Rat × Rat))
    (ep : Bool) : PlotSettings :=
  { rosbag_path := "run.bag", topics := [], label_map := lm,
    outpath := "out.png", slip_regions := [], graph_range := gr,
    legend_loc := "best", epoc_time := ep }

/-- Building `topic_info` (main.py lines 57-65): group the parsed
label-map entries by topic name, preserving first-seen group order and
per-group binding order, exactly as a Python dict of lists does. -/
def addBinding (acc : List (String × List (Option Nat × String)))
    (name : String) (b : Option Nat × String) :
    List (String × List (Option Nat × String)) :=
  match acc with
  | [] => [(name, [b])]
  | (n, bs) :: rest =>
    if n = name then (n, bs ++ [b]) :: rest
    else (n, bs) :: addBinding rest name b

/-- `topic_info` from `settings.label_map`. -/
def buildTopicInfo (lm : List (String × String)) :
    List (String × List (Option Nat × String)) :=
  lm.foldl (fun acc kv =>
    let pr := parse_topic_with_index kv.1
    addBinding acc pr.1 (pr.2, kv.2)) []

/-- `actual_topics`: the distinct parsed topic names (the Python set, for
which only membership matters downstream). -/
def actualTopics (lm : List (String × String)) : List String :=
  (buildTopicInfo lm).map Prod.fst

/-! ### SeriesExtractor (main.py lines 100-113) -/

/-- Per-topic accumulated `(topic_data, time_data)`, keyed like the dict
comprehensions at main.py lines 68-69. -/
abbrev ExtractData := List (String × (List Entry × List Rat))

/-- Fresh empty per-topic lists for every requested topic. -/
def emptyData (ts : List String) : ExtractData :=
  ts.map (fun t => (t, ([], [])))

/-- Association-list lookup with a default; `topic_data[name]` (lookup
never misses on reachable inputs, since the keys are `actual_topics`). -/
def alookup {α : Type} (l : List (String × α)) (k : String) (d : α) : α :=
  match l with
  | [] => d
  | (k', v) :: rest => if k' = k then v else alookup rest k d

/-- `topic_data[topic].append(e)` and `time_data[topic].append(dt)`. -/
def appendAt (d : ExtractData) (tp : String) (e : Entry) (dt : Rat) :
    ExtractData :=
  d.map (fun pr =>
    if pr.1 = tp then (pr.1, (pr.2.1 ++ [e], pr.2.2 ++ [dt])) else pr)

/-- The extraction loop (main.py lines 103-113): sets `t_zero` from the
first record if still unset, then appends the classified value with the
relative time `t - t_zero`. -/
def extractLoop (t0 : Option Rat) (d : ExtractData) :
    List Record → Option Rat × ExtractData
  | [] => (t0, d)
  | r :: rest =>
    let t0' := t0.getD r.time
    extractLoop (some t0')
      (appendAt d r.topic (classify r.payload) (r.time - t0')) rest

/-- Wrapper fixing the appended time to `t - t_zero` (the `dt` at
main.py line 108). -/
def extractAll (t0 : Option Rat) (ts : List String) (msgs : List Record) :
    Option Rat × ExtractData :=
  extractLoop t0 (emptyData ts) msgs

/-! ### SeriesFlattener (main.py lines 120-153) -/

/-- Observable render-time effects of the plotting loop: one entry per
`plt.plot` call or warning `print`, in program order. -/
inductive FlatOut
  | series (label : String) (times : List Rat) (values : List Entry)
  | warnOutOfRange (topic : String) (index dims : Nat)
  | warnScalarIndex (topic : String) (index : Nat)
  deriving DecidableEq, Repr

/-- `list(zip(*arr))`: transpose truncated to the shortest row; `zip()`
of no iterables is empty. -/
def zipStar (rows : List (List Rat)) : List (List Rat) :=
  match (rows.map List.length).min? with
  | none => []
  | some m => (List.range m).map (fun i => rows.map (fun r => r.getD i 0))

/-- `list(a)` applied to each stored entry of a vector-classified topic
(main.py line 131).  A non-list entry under a vector-classified topic is
the heterogeneous-payload mix that spec §9 declares undefined; there the
Python loop leaves the generic numeric path (raising or producing
non-numeric plot input), modelled as an error. -/
def entryAsList : Entry → Except String (List Rat)
  | .vec vs => .ok vs
  | _ => .error "heterogeneous payload shapes"

/-- One binding against a vector-valued topic (main.py lines 134-145):
`index is None` plots every dimension with labels `"<label> [i]"`;
`index = k` plots dimension `k` when in range and warns otherwise.
`for i, dim in enumerate(arr)` is rendered through `List.range` with
`dim = arr[i]`. -/
def flattenVecBinding (topic : String) (times : List Rat)
    (arr : List (List Rat)) : Option Nat × String → List FlatOut
  | (none, label) =>
    (List.range arr.length).map (fun i =>
      .series (label ++ " [" ++ Nat.repr i ++ "]") times
        ((arr.getD i []).map Entry.num))
  | (some k, label) =>
    if k < arr.length then
      [.series label times ((arr.getD k []).map Entry.num)]
    else
      [.warnOutOfRange topic k arr.length]

/-- One binding against a scalar-valued topic (main.py lines 148-153):
`index is None` plots the raw stored values; an index on a scalar topic
only warns. -/
def flattenScalarBinding (topic : String) (entries : List Entry)
    (times : List Rat) : Option Nat × String → List FlatOut
  | (none, label) => [.series label times entries]
  | (some k, _) => [.warnScalarIndex topic k]

/-- `arr = [list(a) for a in arr]` (main.py line 131): convert every
stored entry, stopping at the first failure. -/
def rowsOf : List Entry → Except String (List (List Rat))
  | [] => .ok []
  | e :: rest =>
    match entryAsList e with
    | .error m => .error m
    | .ok l =>
      match rowsOf rest with
      | .error m => .error m
      | .ok ls => .ok (l :: ls)

/-- Flattening of one `topic_info` group (main.py lines 123-153): skip
if no data, branch on whether the first stored entry is array-like, then
process the bindings in order. -/
def flattenGroup (topic : String) (entries : List Entry)
    (times : List Rat) (bs : List (Option Nat × String)) :
    Except String (List FlatOut) :=
  match entries with
  | [] => .ok []
  | e :: _ =>
    match e with
    | .vec _ =>
      match rowsOf entries with
      | .error m => .error m
      | .ok rows =>
        .ok (bs.flatMap (flattenVecBinding topic times (zipStar rows)))
    | _ => .ok (bs.flatMap (flattenScalarBinding topic entries times))

/-! ### plot_topics (main.py lines 55-169) -/

/-- Outcome of one `plot_topics` call.  `noMessages` is the early return
at line 88 (no chart written); `crash` an uncaught exception escaping the
function; `saved` means `plt.savefig(settings.outpath)` ran, with the
plotted series/warnings in program order and the `no numeric data`
diagnostic flag (line 115). -/
inductive PlotOutcome
  | noMessages
  | crash (msg : String)
  | saved (outs : List FlatOut) (noData : Bool)
  deriving DecidableEq, Repr

/-- The rendering loop over `topic_info.items()` (main.py line 123), in
declaration order; an exception in one group's flattening aborts the
whole call. -/
def renderGroups (st : ExtractData) :
    List (String × List (Option Nat × String)) →
      Except String (List FlatOut)
  | [] => .ok []
  | g :: rest =>
    let pr := alookup st g.1 ([], [])
    match flattenGroup g.1 pr.1 pr.2 g.2 with
    | .error m => .error m
    | .ok outs =>
      match renderGroups st rest with
      | .error m => .error m
      | .ok more => .ok (outs ++ more)

/-- Extraction plus rendering, shared by every non-early-return path of
`plot_topics`.  A record whose topic is not a `topic_data` key — which
rosbag delivers exactly when `actual_topics` is empty, since a falsy
topic filter yields every record — raises `KeyError` at
`topic_data[topic].append` (main.py line 110); the loop fails on its
first record then, so the guard is equivalent to Python's per-record
failure. -/
def plotBody (ti : List (String × List (Option Nat × String)))
    (t0 : Option Rat) (msgs : List Record) : PlotOutcome :=
  let ats := ti.map Prod.fst
  if msgs.all (fun r => r.topic ∈ ats) then
    let st := (extractAll t0 ats msgs).2
    let noData := ats.all (fun t => (alookup st t ([], [])).1 = [])
    match renderGroups st ti with
    | .error m => .crash m
    | .ok outs => .saved outs noData
  else
    .crash "KeyError: topic not in topic_data"

/-- `plot_topics`.  In relative mode with a configured `graph_range`, the
source finds `t_zero` in a bounds-free scan, but the
`start_time`/`end_time` assignment (lines 82-83) sits under
`if settings.epoc_time:` inside the `not settings.epoc_time` branch and
is therefore dead; line 92 then evaluates the unassigned `start_time`,
raising `UnboundLocalError`.  In epoch mode, `rospy.Time.from_sec`
(lines 94-95) rejects negative bounds (genpy raises
`TypeError: time values must be positive`). -/
def plot_topics (s : PlotSettings) (bag : Bag) : PlotOutcome :=
  let ti := buildTopicInfo s.label_map
  let ats := ti.map Prod.fst
  match s.graph_range with
  | some (a, b) =>
    if !s.epoc_time then
      match (readMessages bag ats).head? with
      | none => .noMessages
      | some _ =>
        .crash "UnboundLocalError: local variable start_time referenced before assignment"
    else
      if 0 ≤ a ∧ 0 ≤ b then
        plotBody ti (some 0) (readMessagesBounded bag ats a b)
      else
        .crash "TypeError: time values must be positive"
  | none =>
    plotBody ti (if s.epoc_time then some 0 else none) (readMessages bag ats)

/-! ### BatchRunner (`process_bag` and `main`, main.py lines 171-220) -/

/-- How opening a recording behaves: `corrupt` models
`rosbag.bag.ROSBagException` raised while opening/reading, otherwise the
stored records. -/
inductive BagFate
  | corrupt
  | ok (records : Bag)
  deriving DecidableEq, Repr

/-- Result of one job when no exception escapes `process_bag`. -/
inductive JobOutcome
  | skippedCorrupt
  | skippedEmpty
  | plotted (o : PlotOutcome)
  deriving DecidableEq, Repr

/-- `process_bag` (main.py lines 171-181): only `ROSBagException` is
caught; an empty bag is skipped before plotting; any other exception
raised inside `plot_topics` (such as the `UnboundLocalError` of the
relative-window path) escapes, modelled as `.error`. -/
def process_bag (s : PlotSettings) (f : BagFate) :
    Except String JobOutcome :=
  match f with
  | .corrupt => .ok .skippedCorrupt
  | .ok recs =>
    if recs.length = 0 then .ok .skippedEmpty
    else
      match plot_topics s recs with
      | .crash m => .error m
      | o => .ok (.plotted o)

/-- `pool.map(process_bag, settings_list)` (main.py lines 219-220): an
exception escaping any worker is re-raised by `Pool.map` in the parent,
aborting the batch; otherwise all job outcomes are collected. -/
def runBatch : List (PlotSettings × BagFate) → Except String (List JobOutcome)
  | [] => .ok []
  | j :: rest =>
    match process_bag j.1 j.2 with
    | .error m => .error m
    | .ok o =>
      match runBatch rest with
      | .error m => .error m
      | .ok os => .ok (o :: os)

/-- Whether a job would let an exception escape `process_bag`. -/
def jobCrashes (j : PlotSettings × BagFate) : Bool :=
  match j.2 with
  | .corrupt => false
  | .ok recs =>
    if recs.length = 0 then false
    else
      match plot_topics j.1 recs with
      | .crash _ => true
      | _ => false

/-- The outcome a non-crashing job reports. -/
def expectedJobOutcome (j : PlotSettings × BagFate) : JobOutcome :=
  match j.2 with
  | .corrupt => .skippedCorrupt
  | .ok recs =>
    if recs.length = 0 then .skippedEmpty
    else .plotted (plot_topics j.1 recs)

/-! ### Summary extraction utility (time_checker.py) -/

/-- How reading one bag behaves for `get_bag_time_info`: a raised
exception, an empty bag (no topics), or start/end times. -/
inductive BagTimeFate
  | readError
  | empty
  | times (first last : Rat)
  deriving DecidableEq, Repr

/-- `get_bag_time_info` (time_checker.py lines 26-54): errors and empty
bags degrade to `(None, None)`. -/
def get_bag_time_info : BagTimeFate → Option Rat × Option Rat
  | .readError => (none, none)
  | .empty => (none, none)
  | .times f l => (some f, some l)

/-- Whether `get_bag_time_info` prints a warning/error line for this bag
(time_checker.py lines 43 and 53). -/
def warnsFor : BagTimeFate → Bool
  | .times _ _ => false
  | _ => true

/-- CSV serialisation of one optional timestamp: `csv` writes Python
`None` as an empty field. -/
def csvField : Option Rat → String
  | none => ""
  | some r => toString r

/-- The written CSV file: output path, header line, data rows. -/
structure CsvFile where
  path : String
  header : String
  rows : List String
  deriving DecidableEq, Repr

/-- One CSV data row for one bag file (time_checker.py lines 90-105). -/
def csvRow (f : String × BagTimeFate) : String :=
  let pr := get_bag_time_info f.2
  f.1 ++ "," ++ csvField pr.1 ++ "," ++ csvField pr.2

/-- `sorted(bag_files)` via insertion sort on the filename. -/
def insertSorted (x : String × BagTimeFate) :
    List (String × BagTimeFate) → List (String × BagTimeFate)
  | [] => [x]
  | y :: ys => if x.1 ≤ y.1 then x :: y :: ys else y :: insertSorted x ys

/-- Stable ascending sort of the found bag files. -/
def sortFiles : List (String × BagTimeFate) → List (String × BagTimeFate)
  | [] => []
  | x :: xs => insertSorted x (sortFiles xs)

/-- `process_bag_directory` (time_checker.py lines 57-108): `none` for
the directory argument models a nonexistent directory.  The function
returns early — writing no CSV at all — when the directory is missing or
contains no bag files; otherwise it writes the header and one row per
bag file in sorted filename order. -/
def process_bag_directory (dir : Option (List (String × BagTimeFate)))
    (output_csv : String) : Option CsvFile :=
  match dir with
  | none => none
  | some files =>
    if files.isEmpty then none
    else
      some { path := output_csv,
             header := "bag_filename,first_timestamp_epoch,last_timestamp_epoch",
             rows := (sortFiles files).map csvRow }

/-- Default of the `--output` argument (time_checker.py line 127). -/
def defaultOutputCsv : String := "bag_timestamps.csv"

/-! ### Helper lemmas -/

theorem takeWhile_append_all {q : Char → Bool} :
    ∀ (a b : List Char), (∀ x ∈ a, q x) →
      (a ++ b).takeWhile q = a ++ b.takeWhile q := by
  intro a b h
  induction a with
  | nil => simp
  | cons x xs ih =>
    have hx : q x = true := h x (by simp)
    simp only [List.cons_append, List.takeWhile_cons, hx, if_true]
    rw [ih (fun y hy => h y (by simp [hy]))]

theorem takeWhile_cons_neg {q : Char → Bool} {c : Char} (l : List Char)
    (h : q c = false) : (c :: l).takeWhile q = [] := by
  simp [List.takeWhile_cons, h]

/-- Completeness of `splitIndex`: a valid decomposition is found. -/
theorem splitIndex_of_decomp (cs p ds : List Char)
    (h : IsBracketDecomp cs p ds) :
    splitIndex cs = some (p, natOfDigits ds) := by
  obtain ⟨hcs, hp, hnl, hds, hdig⟩ := h
  have hrev : cs.reverse = ']' :: (ds.reverse ++ '[' :: p.reverse) := by
    subst hcs; simp
  have hall : ∀ x ∈ ds.reverse, Char.isDigit x := by
    intro x hx; exact hdig x (List.mem_reverse.mp hx)
  have htake : (ds.reverse ++ '[' :: p.reverse).takeWhile Char.isDigit
      = ds.reverse := by
    rw [takeWhile_append_all _ _ hall,
        takeWhile_cons_neg _ (by decide : Char.isDigit '[' = false)]
    simp
  have hds' : ds.reverse ≠ [] := by simpa using hds
  have hp' : p.reverse ≠ [] := by simpa using hp
  have hnl' : '\n' ∉ p.reverse := by simpa using hnl
  rw [splitIndex, hrev]
  show splitAfterDigits _ _ = _
  rw [htake, List.drop_left]
  rw [splitAfterDigits]
  simp [hds', hp', hnl']

/-- Soundness of `splitIndex`: a successful split comes from a valid
decomposition. -/
theorem decomp_of_splitIndex (cs : List Char) (p : List Char) (k : Nat)
    (h : splitIndex cs = some (p, k)) :
    ∃ ds, IsBracketDecomp cs p ds ∧ k = natOfDigits ds := by
  rw [splitIndex] at h
  unfold splitIndexRev at h
  split at h
  case h_2 => exact absurd h (by simp)
  case h_1 _ rest heq =>
    set ds0 := rest.takeWhile Char.isDigit with hds0
    unfold splitAfterDigits at h
    split at h
    case h_2 => exact absurd h (by simp)
    case h_1 _ p_rev hdropeq =>
      by_cases h1 : ds0 = []
      · rw [if_pos h1] at h; exact absurd h (by simp)
      rw [if_neg h1] at h
      by_cases h2 : p_rev = []
      · rw [if_pos h2] at h; exact absurd h (by simp)
      rw [if_neg h2] at h
      by_cases h3 : '\n' ∈ p_rev
      · rw [if_pos h3] at h; exact absurd h (by simp)
      rw [if_neg h3] at h
      have hpp : p_rev.reverse = p := congrArg Prod.fst (Option.some.inj h)
      have hkk : natOfDigits ds0.reverse = k :=
        congrArg Prod.snd (Option.some.inj h)
      have hrest : rest = ds0 ++ '[' :: p_rev := by
        obtain ⟨t, ht⟩ := List.takeWhile_prefix (l := rest) Char.isDigit
        have hdt : rest.drop ds0.length = t := by
          rw [← ht]; exact List.drop_left _ _
        rw [← ht, hdt.symm, hdropeq]
      have hcs : cs = p ++ '[' :: (ds0.reverse ++ [']']) := by
        have : cs = rest.reverse ++ [']'] := by
          have h' := congrArg List.reverse heq
          simpa using h'
        rw [this, hrest, ← hpp]
        simp
      refine ⟨ds0.reverse, ⟨hcs, ?_, ?_, by simpa using h1, ?_⟩, hkk.symm⟩
      · intro hpe
        exact h2 (by simpa [← hpp] using congrArg List.reverse hpe)
      · rw [← hpp]; simpa using h3
      · intro ch hch
        exact List.mem_takeWhile_imp (List.mem_reverse.mp hch)


theorem alookup_emptyData (l : List String) (t : String) :
    alookup (emptyData l) t ([], []) = ([], []) := by
  induction l with
  | nil => rfl
  | cons x xs ih =>
    simp only [emptyData, List.map_cons, alookup]
    split
    · rfl
    · simpa [emptyData] using ih

theorem renderGroups_emptyData (ats : List String)
    (ti : List (String × List (Option Nat × String))) :
    renderGroups (emptyData ats) ti = .ok [] := by
  induction ti with
  | nil => rfl
  | cons g rest ih =>
    simp only [renderGroups, alookup_emptyData, flattenGroup, ih]
    rfl

theorem plotBody_nil (ti : List (String × List (Option Nat × String)))
    (t0 : Option Rat) : plotBody ti t0 [] = .saved [] true := by
  show (match renderGroups (emptyData (ti.map Prod.fst)) ti with
    | Except.error m => PlotOutcome.crash m
    | Except.ok outs => PlotOutcome.saved outs
        ((ti.map Prod.fst).all (fun t =>
          (alookup (emptyData (ti.map Prod.fst)) t ([], [])).1 = []))) =
      PlotOutcome.saved [] true
  rw [renderGroups_emptyData]
  simp [alookup_emptyData]

theorem readMessagesBounded_nil_of_readMessages_nil (bag : Bag)
    (ts : List String) (a b : Rat) (h : readMessages bag ts = []) :
    readMessagesBounded bag ts a b = [] := by
  rw [readMessages, List.filter_eq_nil_iff] at h
  rw [readMessagesBounded, List.filter_eq_nil_iff]
  intro r hr
  have := h r hr
  simp only [decide_eq_true_eq] at this ⊢
  exact fun hc => this hc.1

theorem foldl_min_all_eq (n : Nat) :
    ∀ (l : List Nat), (∀ x ∈ l, x = n) → l.foldl min n = n := by
  intro l
  induction l with
  | nil => intro _; rfl
  | cons a as ih =>
    intro h
    have ha : a = n := h a (by simp)
    simp only [List.foldl_cons, ha, min_self]
    exact ih (fun x hx => h x (by simp [hx]))

theorem min?_all_eq (l : List Nat) (n : Nat) (hne : l ≠ [])
    (h : ∀ x ∈ l, x = n) : l.min? = some n := by
  cases l with
  | nil => exact absurd rfl hne
  | cons a as =>
    have ha : a = n := h a (by simp)
    rw [List.min?_cons', ha, foldl_min_all_eq n as
      (fun x hx => h x (by simp [hx]))]

theorem zipStar_uniform (rows : List (List Rat)) (n : Nat)
    (hne : rows ≠ []) (hdim : ∀ r ∈ rows, r.length = n) :
    zipStar rows
      = (List.range n).map (fun i => rows.map (fun r => r.getD i 0)) := by
  unfold zipStar
  rw [min?_all_eq (rows.map List.length) n (by simpa using hne)]
  intro x hx
  obtain ⟨r, hr, hrx⟩ := List.mem_map.mp hx
  rw [← hrx]
  exact hdim r hr

theorem rowsOf_map_vec (rows : List (List Rat)) :
    rowsOf (rows.map Entry.vec) = .ok rows := by
  induction rows with
  | nil => rfl
  | cons r rs ih => simp only [List.map_cons, rowsOf, entryAsList, ih]

theorem getD_range_map (n i : Nat) (f : Nat → List Rat) (h : i < n) :
    ((List.range n).map f).getD i [] = f i := by
  have hlen : i < ((List.range n).map f).length := by simpa using h
  rw [List.getD_eq_getElem?_getD, List.getElem?_eq_getElem hlen]
  simp

theorem length_insertSorted (x : String × BagTimeFate)
    (l : List (String × BagTimeFate)) :
    (insertSorted x l).length = l.length + 1 := by
  induction l with
  | nil => rfl
  | cons y ys ih =>
    unfold insertSorted
    split
    · simp
    · simp [ih]

theorem mem_insertSorted (y x : String × BagTimeFate)
    (l : List (String × BagTimeFate)) (h : y ∈ l ∨ y = x) :
    y ∈ insertSorted x l := by
  induction l with
  | nil =>
    rcases h with h | h
    · exact absurd h (by simp)
    · simp [insertSorted, h]
  | cons z zs ih =>
    unfold insertSorted
    split
    · rcases h with h | h
      · exact List.mem_cons_of_mem _ h
      · simp [h]
    · rcases h with h | h
      · rcases List.mem_cons.mp h with h | h
        · simp [h]
        · exact List.mem_cons_of_mem _ (ih (Or.inl h))
      · exact List.mem_cons_of_mem _ (ih (Or.inr h))

theorem length_sortFiles (l : List (String × BagTimeFate)) :
    (sortFiles l).length = l.length := by
  induction l with
  | nil => rfl
  | cons x xs ih => simp [sortFiles, length_insertSorted, ih]

theorem mem_sortFiles (y : String × BagTimeFate)
    (l : List (String × BagTimeFate)) (h : y ∈ l) : y ∈ sortFiles l := by
  induction l with
  | nil => exact absurd h (by simp)
  | cons x xs ih =>
    unfold sortFiles
    rcases List.mem_cons.mp h with h | h
    · exact mem_insertSorted _ _ _ (Or.inr h)
    · exact mem_insertSorted _ _ _ (Or.inl (ih h))

/-! ### Claim theorems -/

/-- C5, counterexample: the string `"[2]"` ends with a literal `[`,
digits, `]`, so the claim demands the parse `("", 2)`; the code's regex
requires a nonempty prefix and yields `("[2]", none)` instead. -/
theorem c5_counterexample :
    parse_topic_with_index "[2]" = ("[2]", none) ∧
      parse_topic_with_index "[2]" ≠ ("", some 2) := by
  constructor
  · rfl
  · decide

/-- C5, amended: after stripping one trailing newline (admitted by
Python's `$`), a topic key that decomposes as a nonempty newline-free
prefix, `[`, one or more digits, `]` parses to that prefix and index;
every key with no such decomposition parses to itself with no index. -/
theorem c5_parse_characterization (s : String) :
    (∀ p ds, IsBracketDecomp (parseBody s) p ds →
      parse_topic_with_index s = (⟨p⟩, some (natOfDigits ds)))
    ∧ ((¬ ∃ p ds, IsBracketDecomp (parseBody s) p ds) →
      parse_topic_with_index s = (s, none)) := by
  constructor
  · intro p ds h
    rw [parse_topic_with_index, splitIndex_of_decomp _ _ _ h]
  · intro hne
    cases hsp : splitIndex (parseBody s) with
    | none => rw [parse_topic_with_index, hsp]
    | some pk =>
      exfalso
      obtain ⟨ds, hd, _⟩ := decomp_of_splitIndex _ pk.1 pk.2 (by rw [hsp])
      exact hne ⟨pk.1, ds, hd⟩

/-- C5, witness: a well-formed key parses to its prefix and index; a key
with no bracket suffix parses to itself. -/
theorem c5_parse_characterization_witness :
    parse_topic_with_index "ab[12]" = ("ab", some 12) ∧
      parse_topic_with_index "/plain" = ("/plain", none) := by
  constructor
  · have h := (c5_parse_characterization "ab[12]").1 ['a', 'b'] ['1', '2']
      (by constructor <;> first | rfl | decide)
    exact h.trans (by decide)
  · refine (c5_parse_characterization "/plain").2 ?_
    rintro ⟨p, ds, hd⟩
    have h := splitIndex_of_decomp _ _ _ hd
    rw [show splitIndex (parseBody "/plain") = none from rfl] at h
    exact absurd h (by simp)

/-- C10: topic-key parsing is total, degrading to the whole key with no
index whenever the regex fails; and on a key with several trailing
bracket groups such as `name[i][j]` only the final group becomes the
index, the earlier brackets remaining part of the signal name. -/
theorem c10_parse_total_last_bracket :
    (∀ s : String, (parse_topic_with_index s).2 = none →
      (parse_topic_with_index s).1 = s)
    ∧ (∀ (nm i j : List Char), '\n' ∉ nm → '\n' ∉ i → j ≠ [] →
        (∀ c ∈ j, c.isDigit) →
        parse_topic_with_index ⟨(nm ++ '[' :: i ++ [']']) ++ '[' :: j ++ [']']⟩
          = (⟨nm ++ '[' :: i ++ [']']⟩, some (natOfDigits j))) := by
  constructor
  · intro s h
    unfold parse_topic_with_index at h ⊢
    cases hsp : splitIndex (parseBody s) with
    | none => rfl
    | some pk => rw [hsp] at h; exact absurd h (by simp)
  · intro nm i j hnm hi hj hdig
    set p : List Char := nm ++ '[' :: i ++ [']'] with hp
    set cs : List Char := p ++ '[' :: j ++ [']'] with hcs
    have hbody : parseBody ⟨cs⟩ = cs := by
      have hlast : cs.getLast? = some ']' := by
        rw [hcs, show p ++ '[' :: j ++ [']'] = (p ++ '[' :: j) ++ [']'] by simp]
        exact List.getLast?_concat _
      rw [parseBody]
      simp [hlast]
    have hdec : IsBracketDecomp cs p j := by
      refine ⟨by rw [hcs]; simp, by simp [hp], ?_, hj, hdig⟩
      rw [hp]
      intro hmem
      rcases List.mem_append.mp hmem with hmem | hmem
      · rcases List.mem_append.mp hmem with hmem | hmem
        · exact hnm hmem
        · rcases List.mem_cons.mp hmem with hmem | hmem
          · exact absurd hmem (by decide)
          · exact hi hmem
      · exact absurd (List.mem_singleton.mp hmem) (by decide)
    rw [parse_topic_with_index, hbody, splitIndex_of_decomp _ _ _ hdec]

/-- C10, witness: `"name[1][2]"` parses to `("name[1]", 2)`, and a key
that fails the regex parses to itself. -/
theorem c10_parse_total_last_bracket_witness :
    parse_topic_with_index "name[1][2]" = ("name[1]", some 2) ∧
      (parse_topic_with_index "/x").1 = "/x" := by
  constructor
  · have h := c10_parse_total_last_bracket.2 ['n', 'a', 'm', 'e'] ['1'] ['2']
      (by decide) (by decide) (by decide) (by decide)
    exact h.trans (by decide)
  · exact c10_parse_total_last_bracket.1 "/x" (by decide)

/-- C1: on a recording with a matching record, a configured window and
epoch mode off, `plot_topics` does find the anchor in a bounds-free scan
but then raises `UnboundLocalError` instead of re-reading with bounds
`(t_anchor + a, t_anchor + b)`: the `start_time`/`end_time` assignment
(main.py lines 82-83) is dead code under `if settings.epoc_time:` inside
the `not settings.epoc_time` branch. -/
theorem c1_relative_window_crash :
    plot_topics (mkSettings [("/a", "L")] (some (0, 1)) false)
        [⟨"/a", .num 1, 10⟩]
      = .crash "UnboundLocalError: local variable start_time referenced before assignment" := by
  rfl

/-- C2, counterexample: a recording whose only record matches no
requested signal, with no time window configured; the claim says no
chart file is written, but the pipeline reaches `plt.savefig` and writes
an (empty) chart. -/
theorem c2_counterexample :
    readMessages [⟨"/other", .num 5, 1⟩] (actualTopics [("/a", "L")]) = [] ∧
      plot_topics (mkSettings [("/a", "L")] none false) [⟨"/other", .num 5, 1⟩]
        = .saved [] true := by
  constructor
  · rfl
  · rfl

/-- C2, amended: with no record matching any requested signal, the
pipeline aborts with the no-messages outcome (no chart) only when a
window is configured in relative mode; with an epoch-mode window of
non-negative bounds, or no window, it logs the no-data diagnostic and
still writes a chart with no data series. -/
theorem c2_no_matching_records (s : PlotSettings) (bag : Bag)
    (h : readMessages bag (actualTopics s.label_map) = []) :
    (∀ a b, s.graph_range = some (a, b) → s.epoc_time = false →
      plot_topics s bag = .noMessages)
    ∧ (∀ a b, s.graph_range = some (a, b) → s.epoc_time = true →
      0 ≤ a → 0 ≤ b → plot_topics s bag = .saved [] true)
    ∧ (s.graph_range = none → plot_topics s bag = .saved [] true) := by
  rw [actualTopics] at h
  refine ⟨?_, ?_, ?_⟩
  · intro a b hgr hep
    rw [plot_topics, hgr, hep]
    simp only [Bool.not_false, if_true]
    rw [h]
    rfl
  · intro a b hgr hep ha hb
    rw [plot_topics, hgr, hep]
    simp only [Bool.not_true, if_false]
    rw [if_pos (show (0 : Rat) ≤ a ∧ (0 : Rat) ≤ b from ⟨ha, hb⟩),
      readMessagesBounded_nil_of_readMessages_nil _ _ _ _ h]
    exact plotBody_nil _ _
  · intro hgr
    rw [plot_topics, hgr, h]
    exact plotBody_nil _ _

/-- C2, witness: with no matching record, a relative-mode window gives
the no-chart outcome and an epoch-mode window still writes a chart. -/
theorem c2_no_matching_records_witness :
    plot_topics (mkSettings [("/a", "L")] (some (0, 1)) false)
        [⟨"/other", .num 5, 1⟩] = .noMessages ∧
      plot_topics (mkSettings [("/a", "L")] (some (0, 1)) true)
        [⟨"/other", .num 5, 1⟩] = .saved [] true := by
  constructor
  · exact (c2_no_matching_records _ _ (by rfl)).1 0 1 rfl rfl
  · exact (c2_no_matching_records _ _ (by rfl)).2.1 0 1 rfl rfl
      (by norm_num) (by norm_num)

/-- C3, counterexample: a record whose payload is a structure with three
spatial-axis fields and no `data` attribute.  The claim says a 3-vector
is synthesized and appended with the absolute timestamp 100; the code
stores the `getattr` default `None` with the relative time 0. -/
theorem c3_counterexample :
    plot_topics (mkSettings [("/a", "L")] none false) [⟨"/a", .xyz 1 2 3, 100⟩]
        = .saved [.series "L" [0] [.pynone]] false ∧
      plot_topics (mkSettings [("/a", "L")] none false) [⟨"/a", .xyz 1 2 3, 100⟩]
        ≠ .saved [.series "L" [100] [.vec [1, 2, 3]]] false := by
  constructor
  · with_unfolding_all rfl
  · with_unfolding_all decide

/-- C3, amended: for a record whose payload is a structure with three
spatial-axis fields and no `data` attribute, extraction appends the
`getattr` default `None` as a scalar entry together with the relative
time `t - t_zero`; no 3-vector is synthesized and the absolute timestamp
is not used. -/
theorem c3_xyz_payload (tp L : String) (x y z t : Rat)
    (h : parse_topic_with_index tp = (tp, none)) :
    plot_topics (mkSettings [(tp, L)] none false) [⟨tp, .xyz x y z, t⟩]
      = .saved [.series L [0] [.pynone]] false := by
  have hti : buildTopicInfo [(tp, L)] = [(tp, [(Option.none, L)])] := by
    simp [buildTopicInfo, h, addBinding]
  have hstep : plot_topics (mkSettings [(tp, L)] none false)
        [⟨tp, .xyz x y z, t⟩]
      = plotBody (buildTopicInfo [(tp, L)]) none
          (readMessages [⟨tp, .xyz x y z, t⟩] (actualTopics [(tp, L)])) := rfl
  rw [hstep, actualTopics, hti]
  simp [readMessages, plotBody, extractAll, extractLoop, emptyData, appendAt,
    alookup, renderGroups, flattenGroup, flattenScalarBinding, classify,
    sub_self]

/-- C3, witness: the amended behavior at a concrete xyz-payload record. -/
theorem c3_xyz_payload_witness :
    plot_topics (mkSettings [("/a", "L")] none false) [⟨"/a", .xyz 1 2 3, 100⟩]
      = .saved [.series "L" [0] [.pynone]] false :=
  c3_xyz_payload "/a" "L" 1 2 3 100 (by rfl)

/-- C4, counterexample: a job whose extraction raises (the
relative-window `UnboundLocalError`, which is not a `ROSBagException`)
escapes `process_bag` and aborts the batch: the sibling job queued after
it — which on its own would plot fine — never reports an outcome. -/
theorem c4_counterexample :
    process_bag (mkSettings [("/b", "M")] none false) (.ok [⟨"/b", .num 2, 5⟩])
        = .ok (.plotted (.saved [.series "M" [0] [.num 2]] false)) ∧
      runBatch
          [(mkSettings [("/a", "L")] (some (0, 1)) false,
            .ok [⟨"/a", .num 1, 10⟩]),
           (mkSettings [("/b", "M")] none false, .ok [⟨"/b", .num 2, 5⟩])]
        = .error "UnboundLocalError: local variable start_time referenced before assignment" := by
  constructor
  · with_unfolding_all rfl
  · with_unfolding_all rfl

/-- C4, amended: corrupt recordings, empty recordings and any job whose
`plot_topics` call does not raise are handled independently — the batch
collects every job's outcome; but a job whose extraction or rendering
raises anything other than `ROSBagException` aborts the whole batch,
because `process_bag` catches only `ROSBagException`. -/
theorem c4_batch_isolation (jobs : List (PlotSettings × BagFate))
    (h : ∀ j ∈ jobs, jobCrashes j = false) :
    runBatch jobs = .ok (jobs.map expectedJobOutcome) := by
  induction jobs with
  | nil => rfl
  | cons j rest ih =>
    have hj : jobCrashes j = false := h j (by simp)
    have hrest : runBatch rest = .ok (rest.map expectedJobOutcome) :=
      ih (fun x hx => h x (by simp [hx]))
    have hpb : process_bag j.1 j.2 = .ok (expectedJobOutcome j) := by
      unfold process_bag expectedJobOutcome
      cases hf : j.2 with
      | corrupt => rfl
      | ok recs =>
        by_cases hlen : recs.length = 0
        · simp [hlen]
        · simp only [if_neg hlen]
          cases hp : plot_topics j.1 recs with
          | crash m =>
            exfalso
            unfold jobCrashes at hj
            rw [hf] at hj
            simp [hlen, hp] at hj
          | noMessages => rfl
          | saved o nd => rfl
    unfold runBatch
    rw [hpb, hrest]
    simp

/-- C4, witness: a batch of a corrupt recording, an empty recording and
a healthy job runs to completion with per-job outcomes. -/
theorem c4_batch_isolation_witness :
    runBatch
        [(mkSettings [("/a", "L")] none false, .corrupt),
         (mkSettings [("/a", "L")] none false, .ok []),
         (mkSettings [("/b", "M")] none false, .ok [⟨"/b", .num 2, 5⟩])]
      = .ok [.skippedCorrupt, .skippedEmpty,
             .plotted (.saved [.series "M" [0] [.num 2]] false)] := by
  have h := c4_batch_isolation
    [(mkSettings [("/a", "L")] none false, .corrupt),
     (mkSettings [("/a", "L")] none false, .ok []),
     (mkSettings [("/b", "M")] none false, .ok [⟨"/b", .num 2, 5⟩])]
    (by intro j hj; fin_cases hj <;> with_unfolding_all rfl)
  exact h.trans (by with_unfolding_all rfl)

/-- C6: flattening a vector-valued series of uniform dimension `n`: a
binding with no index and label `L` emits one flat series per dimension
`i`, labeled `L [i]` and carrying dimension `i` of every sample; a
binding with index `k < n` and label `L` emits exactly one flat series
labeled `L` carrying dimension `k`. -/
theorem c6_vector_flatten (rows : List (List Rat)) (n : Nat)
    (times : List Rat) (topic L : String) (k : Nat)
    (hne : rows ≠ []) (hdim : ∀ r ∈ rows, r.length = n) (hk : k < n) :
    flattenGroup topic (rows.map Entry.vec) times [(none, L)]
      = .ok ((List.range n).map (fun i =>
          .series (L ++ " [" ++ Nat.repr i ++ "]") times
            ((rows.map (fun r => r.getD i 0)).map Entry.num)))
    ∧ flattenGroup topic (rows.map Entry.vec) times [(some k, L)]
      = .ok [.series L times ((rows.map (fun r => r.getD k 0)).map Entry.num)] := by
  obtain ⟨r0, rs, rfl⟩ : ∃ r0 rs, rows = r0 :: rs := by
    cases rows with
    | nil => exact absurd rfl hne
    | cons a l => exact ⟨a, l, rfl⟩
  have hzip := zipStar_uniform (r0 :: rs) n hne hdim
  have hflat : ∀ b, flattenGroup topic ((r0 :: rs).map Entry.vec) times [b]
      = .ok (flattenVecBinding topic times
          ((List.range n).map (fun i => (r0 :: rs).map (fun r => r.getD i 0))) b) := by
    intro b
    show (match rowsOf ((r0 :: rs).map Entry.vec) with
      | .error m => Except.error m
      | .ok rows' =>
        .ok ([b].flatMap (flattenVecBinding topic times (zipStar rows')))) = _
    rw [rowsOf_map_vec]
    show Except.ok
        ([b].flatMap (flattenVecBinding topic times (zipStar (r0 :: rs)))) = _
    rw [hzip]
    simp
  constructor
  · rw [hflat]
    show Except.ok ((List.range _).map _) = _
    congr 1
    rw [List.length_map, List.length_range]
    refine List.map_congr_left ?_
    intro i hi
    rw [getD_range_map _ _ _ (List.mem_range.mp hi)]
  · rw [hflat]
    show Except.ok (if k < ((List.range n).map _).length then _ else _) = _
    rw [if_pos (by simpa using hk)]
    rw [getD_range_map _ _ _ hk]

/-- C6, witness: the two binding shapes at a concrete 2-dimensional
series. -/
theorem c6_vector_flatten_witness :
    flattenGroup "/a" ([[1, 2], [3, 4]].map Entry.vec) [0, 1] [(none, "P")]
        = .ok [.series "P [0]" [0, 1] [.num 1, .num 3],
               .series "P [1]" [0, 1] [.num 2, .num 4]] ∧
      flattenGroup "/a" ([[1, 2], [3, 4]].map Entry.vec) [0, 1] [(some 1, "Y")]
        = .ok [.series "Y" [0, 1] [.num 2, .num 4]] := by
  have h := c6_vector_flatten [[1, 2], [3, 4]] 2 [0, 1] "/a" "P" 1
    (by simp) (by decide) (by decide)
  have h2 := c6_vector_flatten [[1, 2], [3, 4]] 2 [0, 1] "/a" "Y" 1
    (by simp) (by decide) (by decide)
  exact ⟨h.1.trans (by with_unfolding_all rfl),
         h2.2.trans (by with_unfolding_all rfl)⟩

/-- C7: an invalid binding — an index on a scalar-valued series, or an
index at or beyond the vector dimension — contributes exactly one
warning and zero flat series, and the bindings before and after it are
still flattened. -/
theorem c7_invalid_index_skip (topic L : String) (times : List Rat)
    (k : Nat) (bs1 bs2 : List (Option Nat × String)) :
    (∀ (v : Rat) (rest : List Entry),
      flattenGroup topic (.num v :: rest) times (bs1 ++ (some k, L) :: bs2)
        = .ok (bs1.flatMap (flattenScalarBinding topic (.num v :: rest) times)
               ++ .warnScalarIndex topic k
               :: bs2.flatMap (flattenScalarBinding topic (.num v :: rest) times)))
    ∧ (∀ (rows : List (List Rat)) (n : Nat), rows ≠ [] →
        (∀ r ∈ rows, r.length = n) → n ≤ k →
        flattenGroup topic (rows.map Entry.vec) times (bs1 ++ (some k, L) :: bs2)
          = .ok (bs1.flatMap (flattenVecBinding topic times
                   ((List.range n).map (fun i => rows.map (fun r => r.getD i 0))))
                 ++ .warnOutOfRange topic k n
                 :: bs2.flatMap (flattenVecBinding topic times
                   ((List.range n).map (fun i => rows.map (fun r => r.getD i 0)))))) := by
  constructor
  · intro v rest
    show Except.ok ((bs1 ++ (some k, L) :: bs2).flatMap
        (flattenScalarBinding topic (.num v :: rest) times)) = _
    rw [List.flatMap_append, List.flatMap_cons]
    rfl
  · intro rows n hne hdim hk
    obtain ⟨r0, rs, rfl⟩ : ∃ r0 rs, rows = r0 :: rs := by
      cases rows with
      | nil => exact absurd rfl hne
      | cons a l => exact ⟨a, l, rfl⟩
    have hzip := zipStar_uniform (r0 :: rs) n hne hdim
    show (match rowsOf ((r0 :: rs).map Entry.vec) with
      | .error m => Except.error m
      | .ok rows' =>
        .ok ((bs1 ++ (some k, L) :: bs2).flatMap
          (flattenVecBinding topic times (zipStar rows')))) = _
    rw [rowsOf_map_vec]
    show Except.ok ((bs1 ++ (some k, L) :: bs2).flatMap
        (flattenVecBinding topic times (zipStar (r0 :: rs)))) = _
    rw [hzip, List.flatMap_append, List.flatMap_cons]
    have hmid : flattenVecBinding topic times
        ((List.range n).map (fun i => (r0 :: rs).map (fun r => r.getD i 0)))
        (some k, L) = [.warnOutOfRange topic k n] := by
      show (if k < ((List.range n).map _).length then _ else _) = _
      rw [if_neg (by simpa using Nat.not_lt.mpr hk)]
      congr 1
      simp
    rw [hmid]
    rfl

/-- C7, witness: a scalar series with an indexed binding between two
valid bindings, and an out-of-range index on a 2-dimensional series. -/
theorem c7_invalid_index_skip_witness :
    flattenGroup "/s" [.num 1] [0]
        ([(none, "A")] ++ (some 3, "Z") :: [(none, "B")])
      = .ok [.series "A" [0] [.num 1], .warnScalarIndex "/s" 3,
             .series "B" [0] [.num 1]] ∧
      flattenGroup "/s" ([[5, 6]].map Entry.vec) [0]
          ([] ++ (some 7, "Z") :: [(some 0, "W")])
        = .ok [.warnOutOfRange "/s" 7 2, .series "W" [0] [.num 5]] := by
  constructor
  · have h := (c7_invalid_index_skip "/s" "Z" [0] 3 [(none, "A")]
      [(none, "B")]).1 1 []
    exact h.trans (by with_unfolding_all rfl)
  · have h := (c7_invalid_index_skip "/s" "Z" [0] 7 [] [(some 0, "W")]).2
      [[5, 6]] 2 (by simp) (by decide) (by decide)
    exact h.trans (by with_unfolding_all rfl)

/-- C8, counterexample: for a directory that exists but contains no
recording files (and likewise for a missing directory) the utility
returns early and writes no CSV at all, although the claim promises a
CSV with the header for every input directory. -/
theorem c8_counterexample :
    process_bag_directory (some []) defaultOutputCsv = none ∧
      process_bag_directory none defaultOutputCsv = none := by
  exact ⟨rfl, rfl⟩

/-- C8, amended: for every existing input directory containing at least
one recording file, the utility writes a CSV with the exact header
`bag_filename,first_timestamp_epoch,last_timestamp_epoch` and one row
per recording file found; a recording that errors or contains no signals
gets empty timestamp fields and a logged warning, and the output path
defaults to `bag_timestamps.csv`.  A missing directory or one with no
recording files produces no CSV. -/
theorem c8_csv_summary (files : List (String × BagTimeFate)) (out : String)
    (hne : files ≠ []) :
    ∃ csv, process_bag_directory (some files) out = some csv ∧
      csv.path = out ∧
      csv.header = "bag_filename,first_timestamp_epoch,last_timestamp_epoch" ∧
      csv.rows.length = files.length ∧
      (∀ f ∈ files, csvRow f ∈ csv.rows) ∧
      (∀ f ∈ files, f.2 = .readError ∨ f.2 = .empty →
        csvRow f = f.1 ++ ",," ∧ warnsFor f.2 = true) ∧
      defaultOutputCsv = "bag_timestamps.csv" := by
  refine ⟨{ path := out,
            header := "bag_filename,first_timestamp_epoch,last_timestamp_epoch",
            rows := (sortFiles files).map csvRow }, ?_, rfl, rfl, ?_, ?_, ?_, rfl⟩
  · rw [process_bag_directory, if_neg (by simpa using hne)]
  · rw [List.length_map, length_sortFiles]
  · intro f hf
    exact List.mem_map_of_mem _ (mem_sortFiles _ _ hf)
  · intro f hf hfe
    constructor
    · rcases hfe with hfe | hfe <;>
        · rw [csvRow, hfe]
          show f.1 ++ "," ++ "" ++ "," ++ "" = f.1 ++ ",,"
          apply String.ext
          simp [String.data_append]
    · rcases hfe with hfe | hfe <;> rw [hfe] <;> rfl

/-- C8, witness: a directory with one healthy and one unreadable
recording. -/
theorem c8_csv_summary_witness :
    ∃ csv, process_bag_directory
          (some [("a.bag", .times 1 2), ("b.bag", .readError)])
          "bag_timestamps.csv" = some csv ∧
      csv.path = "bag_timestamps.csv" ∧
      csv.header = "bag_filename,first_timestamp_epoch,last_timestamp_epoch" ∧
      csv.rows.length = [("a.bag", BagTimeFate.times 1 2),
        ("b.bag", BagTimeFate.readError)].length ∧
      (∀ f ∈ [("a.bag", BagTimeFate.times 1 2), ("b.bag", BagTimeFate.readError)],
        csvRow f ∈ csv.rows) ∧
      (∀ f ∈ [("a.bag", BagTimeFate.times 1 2), ("b.bag", BagTimeFate.readError)],
        f.2 = .readError ∨ f.2 = .empty →
        csvRow f = f.1 ++ ",," ∧ warnsFor f.2 = true) ∧
      defaultOutputCsv = "bag_timestamps.csv" :=
  c8_csv_summary [("a.bag", .times 1 2), ("b.bag", .readError)]
    "bag_timestamps.csv" (by simp)

/-- C9: the `topics` list field of `PlotSettings` has no effect on the
plotting pipeline — two settings differing only in `topics` produce the
same outcome (same signals read, same series, same chart content) on
every recording. -/
theorem c9_topics_noninterference (s : PlotSettings) (bag : Bag)
    (ts : List String) :
    plot_topics { s with topics := ts } bag = plot_topics s bag := rfl

end PaceAnalysis
